import Mathlib

/-!
Shallow embedding of the AlpaTrade bot's signal-generation and risk-gated
execution pipeline (`app/indicators.py`, `app/strategy.py`, `app/sentiment.py`).

Modelling conventions:
* `float` values are modelled as `ℚ`; pandas `NaN` ("undefined") values are
  modelled as `none : Option ℚ`.  A comparison against an undefined value is
  `false`, matching IEEE-754 comparisons against `NaN`.
* A pandas rolling computation of window `w` is undefined at index `i` unless
  `1 ≤ w ∧ w ≤ i + 1` (pandas uses `min_periods = window`), and is undefined
  whenever an input inside the window is undefined.
* A division whose denominator is zero is modelled as undefined.  In the two
  places this occurs (stochastic `%K` on a flat range, CCI with zero mean
  deviation) the numerator is also zero in every reachable state, so the
  pandas result is `0/0 = NaN`, i.e. undefined.
* The `volume` column may be absent from the input frame; a bar therefore
  carries `volume : Option ℚ` (`none` = column absent for that bar).
* Async collaborator calls (`get_positions`, `get_account_info`,
  `place_order`) are modelled as `Except String` snapshots supplied to the
  function, with an exception (`.error`) flowing to the Python `except`
  handler of the caller.  `execute_signal` additionally returns how many
  times each collaborator was invoked.
-/

namespace AlpaTrade

/-- `OrderSide` from `app/models.py` (only the values read by the core). -/
inductive OrderSide where
  | buy
  | sell
deriving DecidableEq, Repr, Inhabited

/-- `AutomationMode` from `app/models.py`. -/
inductive AutomationMode where
  | auto
  | alert_only
  | semi_auto
deriving DecidableEq, Repr, Inhabited

/-- One OHLCV bar; only the columns read by the strategy are modelled
(`open`/`timestamp` are never read).  `volume = none` models a frame with no
volume column. -/
structure Bar where
  high : ℚ
  low : ℚ
  close : ℚ
  volume : Option ℚ
deriving DecidableEq, Repr, Inhabited

/-- `StrategyConfig` fields read by `strategy.py`. -/
structure StrategyConfig where
  name : String
  stoch_k_period : ℕ
  stoch_d_period : ℕ
  cci_period : ℕ
  stoch_oversold : ℚ
  stoch_overbought : ℚ
  cci_oversold : ℚ
  cci_overbought : ℚ
  stop_loss_percent : ℚ
  capital_allocation_percent : ℚ
  max_positions : ℕ
deriving DecidableEq, Repr, Inhabited

/-- `TradingSignal` (`strategy.py`); the fields the claims observe.  The
`indicators` snapshot, `notes` text and creation timestamp are not modelled
(never read by the dispatch/risk/sentiment code). -/
structure TradingSignal where
  symbol : String
  side : OrderSide
  confidence : ℚ
  price : Option ℚ
  stop_loss : Option ℚ
  take_profit : Option ℚ
  timeframe : String
  strategy_name : String
deriving DecidableEq, Repr, Inhabited

/-! ### Rolling-window primitives (pandas semantics) -/

/-- The trailing window of length `w` ending at index `i` (inclusive). -/
def window (w i : ℕ) (xs : List α) : List α :=
  (xs.take (i + 1)).drop (i + 1 - w)

/-- Sum-based arithmetic mean; `listMean [] = 0` (never used on an empty
window: rolling windows have length `w ≥ 1`). -/
def listMean (xs : List ℚ) : ℚ :=
  xs.sum / (xs.length : ℚ)

/-- Minimum of a nonempty list (`0` for `[]`, never used there). -/
def listMin : List ℚ → ℚ
  | [] => 0
  | x :: xs => xs.foldl min x

/-- Maximum of a nonempty list (`0` for `[]`, never used there). -/
def listMax : List ℚ → ℚ
  | [] => 0
  | x :: xs => xs.foldl max x

/-- `some` iff every element is defined (pandas: a `NaN` input inside a
rolling window makes the output `NaN`). -/
def seqOption : List (Option ℚ) → Option (List ℚ)
  | [] => some []
  | none :: _ => none
  | some x :: xs => (seqOption xs).map (fun ys => x :: ys)

/-! ### `TechnicalIndicators` (`app/indicators.py`) -/

def lows (bars : List Bar) : List ℚ := bars.map (·.low)

def highs (bars : List Bar) : List ℚ := bars.map (·.high)

def closes (bars : List Bar) : List ℚ := bars.map (·.close)

/-- `stochastic_oscillator` `%K` at index `i`:
`100 * (close - rollingMin(low,k)) / (rollingMax(high,k) - rollingMin(low,k))`;
undefined before the window fills or on a flat range (pandas `0/0 = NaN`
given `low ≤ close ≤ high`). -/
def stochKAt (k_period : ℕ) (bars : List Bar) (i : ℕ) : Option ℚ :=
  if 1 ≤ k_period ∧ k_period ≤ i + 1 then
    let lowest_low := listMin (window k_period i (lows bars))
    let highest_high := listMax (window k_period i (highs bars))
    let c := (closes bars).getD i 0
    if highest_high = lowest_low then none
    else some (100 * ((c - lowest_low) / (highest_high - lowest_low)))
  else none

/-- The `%K` series, aligned 1:1 with the input bars. -/
def stoch_k_list (k_period : ℕ) (bars : List Bar) : List (Option ℚ) :=
  (List.range bars.length).map (stochKAt k_period bars)

/-- `%D` at index `i`: simple rolling mean of `%K` over `d_period` values;
undefined if the window does not fill or contains an undefined `%K`. -/
def stochDAt (d_period : ℕ) (ks : List (Option ℚ)) (i : ℕ) : Option ℚ :=
  if 1 ≤ d_period ∧ d_period ≤ i + 1 then
    (seqOption (window d_period i ks)).map listMean
  else none

def stoch_d_list (k_period d_period : ℕ) (bars : List Bar) : List (Option ℚ) :=
  (List.range bars.length).map (stochDAt d_period (stoch_k_list k_period bars))

/-- Typical price `(H + L + C) / 3` of each bar. -/
def typical_prices (bars : List Bar) : List ℚ :=
  bars.map (fun b => (b.high + b.low + b.close) / 3)

/-- `commodity_channel_index` at index `i`:
`(TP - SMA(TP,p)) / (0.015 * meanAbsDeviation(TP,p))`; undefined before the
window fills or when the mean deviation is zero (pandas `0/0 = NaN`, since a
zero deviation forces `TP = SMA(TP,p)`). -/
def cciAt (period : ℕ) (bars : List Bar) (i : ℕ) : Option ℚ :=
  if 1 ≤ period ∧ period ≤ i + 1 then
    let w := window period i (typical_prices bars)
    let sma_tp := listMean w
    let mean_deviation := listMean (w.map (fun x => |x - sma_tp|))
    let tp := (typical_prices bars).getD i 0
    if mean_deviation = 0 then none
    else some ((tp - sma_tp) / ((3 / 200) * mean_deviation))
  else none

def cci_list (period : ℕ) (bars : List Bar) : List (Option ℚ) :=
  (List.range bars.length).map (cciAt period bars)

/-- Positive deltas of the close series; index 0's `NaN` delta becomes `0`
(`delta.where(delta > 0, 0)` replaces `NaN` because `NaN > 0` is `False`). -/
def gainsOf (cs : List ℚ) : List ℚ :=
  (List.range cs.length).map
    (fun i => if i = 0 then 0 else max (cs.getD i 0 - cs.getD (i - 1) 0) 0)

/-- Negated negative deltas of the close series, with the same index-0
convention as `gainsOf`. -/
def lossesOf (cs : List ℚ) : List ℚ :=
  (List.range cs.length).map
    (fun i => if i = 0 then 0 else max (cs.getD (i - 1) 0 - cs.getD i 0) 0)

/-- `rsi` at index `i`: rolling means of gains/losses; in floats
`avgLoss = 0 ∧ avgGain > 0` gives `RS = ∞`, hence `RSI = 100`, while
`avgLoss = avgGain = 0` gives `NaN` (undefined). -/
def rsiAt (period : ℕ) (cs : List ℚ) (i : ℕ) : Option ℚ :=
  if 1 ≤ period ∧ period ≤ i + 1 then
    let gain := listMean (window period i (gainsOf cs))
    let loss := listMean (window period i (lossesOf cs))
    if loss = 0 then (if 0 < gain then some 100 else none)
    else some (100 - 100 / (1 + gain / loss))
  else none

def rsi_list (period : ℕ) (cs : List ℚ) : List (Option ℚ) :=
  (List.range cs.length).map (rsiAt period cs)

/-- One row of the indicator-augmented frame; only the columns the strategy
reads (`sma`/`ema`/Bollinger/MACD are computed by the source but never read
by `analyze_symbol`, so they are not modelled). -/
structure AugBar where
  close : ℚ
  volume : Option ℚ
  stoch_k : Option ℚ
  stoch_d : Option ℚ
  cci : Option ℚ
  rsi : Option ℚ
deriving DecidableEq, Repr, Inhabited

/-- `calculate_all_indicators`, restricted to the columns the strategy reads;
aligned 1:1 with the input bars. -/
def calculate_all_indicators (bars : List Bar)
    (stoch_k_period stoch_d_period cci_period rsi_period : ℕ) : List AugBar :=
  (List.range bars.length).map (fun i =>
    { close := (closes bars).getD i 0
      volume := (bars.getD i default).volume
      stoch_k := stochKAt stoch_k_period bars i
      stoch_d := stochDAt stoch_d_period (stoch_k_list stoch_k_period bars) i
      cci := cciAt cci_period bars i
      rsi := rsiAt rsi_period (closes bars) i })

/-! ### `StochasticCCIStrategy` (`app/strategy.py`) -/

/-- `x < a` on a possibly-undefined left operand (`NaN` comparisons are
`False` in Python). -/
def oltB (x : Option ℚ) (a : ℚ) : Bool :=
  match x with
  | some v => decide (v < a)
  | none => false

/-- `x > a` on a possibly-undefined left operand. -/
def ogtB (x : Option ℚ) (a : ℚ) : Bool :=
  match x with
  | some v => decide (a < v)
  | none => false

/-- `x > y` where both operands may be undefined. -/
def ogtPairB (x y : Option ℚ) : Bool :=
  match x, y with
  | some v, some w => decide (w < v)
  | _, _ => false

/-- `x < y` where both operands may be undefined. -/
def oltPairB (x y : Option ℚ) : Bool :=
  match x, y with
  | some v, some w => decide (v < w)
  | _, _ => false

/-- `latest['volume'] > prev['volume'] * 0.8` guarded by
`'volume' in latest and 'volume' in prev`; `true` when the column is absent
on either bar. -/
def volumeOkB (latest prev : AugBar) : Bool :=
  match latest.volume, prev.volume with
  | some lv, some pv => decide (pv * (8 / 10) < lv)
  | _, _ => true

/-- The confidence / stop-loss / take-profit dictionary returned by
`_check_buy_conditions` / `_check_sell_conditions` (the `notes` text is not
modelled). -/
structure SignalLevels where
  confidence : ℚ
  stop_loss : ℚ
  take_profit : ℚ
deriving DecidableEq, Repr, Inhabited

/-- `_check_buy_conditions`. -/
def check_buy_conditions (config : StrategyConfig) (latest prev : AugBar) :
    Option SignalLevels :=
  let stoch_oversold :=
    oltB latest.stoch_k config.stoch_oversold &&
    oltB latest.stoch_d config.stoch_oversold &&
    ogtPairB latest.stoch_k latest.stoch_d
  let cci_oversold := oltB latest.cci config.cci_oversold
  let rsi_ok := ogtB latest.rsi 25
  let volume_ok := volumeOkB latest prev
  if stoch_oversold && cci_oversold && rsi_ok && volume_ok then
    some { confidence := 7 / 10
           stop_loss := latest.close * (1 - config.stop_loss_percent / 100)
           take_profit := latest.close * (1 + config.stop_loss_percent * 2 / 100) }
  else none

/-- `_check_sell_conditions`. -/
def check_sell_conditions (config : StrategyConfig) (latest prev : AugBar) :
    Option SignalLevels :=
  let stoch_overbought :=
    ogtB latest.stoch_k config.stoch_overbought &&
    ogtB latest.stoch_d config.stoch_overbought &&
    oltPairB latest.stoch_k latest.stoch_d
  let cci_overbought := ogtB latest.cci config.cci_overbought
  let rsi_ok := oltB latest.rsi 75
  let volume_ok := volumeOkB latest prev
  if stoch_overbought && cci_overbought && rsi_ok && volume_ok then
    some { confidence := 7 / 10
           stop_loss := latest.close * (1 + config.stop_loss_percent / 100)
           take_profit := latest.close * (1 - config.stop_loss_percent * 2 / 100) }
  else none

/-- The augmented frame built by `analyze_symbol` (it passes only the
stochastic and CCI periods; `rsi_period` keeps its default `14`). -/
def augmentedOf (config : StrategyConfig) (bars : List Bar) : List AugBar :=
  calculate_all_indicators bars
    config.stoch_k_period config.stoch_d_period config.cci_period 14

/-- `df_with_indicators.iloc[-1]` (dummy default, unreachable in
`analyze_symbol` thanks to the history guard). -/
def latestOf (config : StrategyConfig) (bars : List Bar) : AugBar :=
  (augmentedOf config bars).reverse.headD default

/-- `df_with_indicators.iloc[-2] if len > 1 else latest`. -/
def prevOf (config : StrategyConfig) (bars : List Bar) : AugBar :=
  (augmentedOf config bars).reverse.tail.headD (latestOf config bars)

/-- `StochasticCCIStrategy.analyze_symbol`. -/
def analyze_symbol (config : StrategyConfig) (symbol : String)
    (bars : List Bar) (timeframe : String) : Option TradingSignal :=
  if bars.length < max config.stoch_k_period config.cci_period + 10 then none
  else
    match (augmentedOf config bars).reverse with
    | [] => none
    | latest :: rest =>
      let prev := rest.headD latest
      match check_buy_conditions config latest prev with
      | some buy_signal =>
        some { symbol := symbol
               side := OrderSide.buy
               confidence := buy_signal.confidence
               price := some latest.close
               stop_loss := some buy_signal.stop_loss
               take_profit := some buy_signal.take_profit
               timeframe := timeframe
               strategy_name := config.name }
      | none =>
        match check_sell_conditions config latest prev with
        | some sell_signal =>
          some { symbol := symbol
                 side := OrderSide.sell
                 confidence := sell_signal.confidence
                 price := some latest.close
                 stop_loss := some sell_signal.stop_loss
                 take_profit := some sell_signal.take_profit
                 timeframe := timeframe
                 strategy_name := config.name }
        | none => none

/-! ### `RiskManager` (`app/strategy.py`) -/

/-- `get_account_info()` snapshot; the fields the core reads. -/
structure AccountInfo where
  equity : ℚ
  buying_power : ℚ
deriving DecidableEq, Repr, Inhabited

/-- One entry of the `get_positions()` snapshot; only `['symbol']` is read. -/
structure Position where
  symbol : String
deriving DecidableEq, Repr, Inhabited

/-- Python `int()` truncation toward zero on a rational. -/
def truncToInt (q : ℚ) : ℤ :=
  if 0 ≤ q then ⌊q⌋ else ⌈q⌉

/-- `RiskManager.calculate_position_size`:
`int(account_value * (capital_allocation_percent / 100) / price)`, clamped to
`0` when below `1`.  A zero `price` raises `ZeroDivisionError` in Python,
caught by the function's own handler which returns `0`; `ℚ` division by zero
is `0`, so `truncToInt 0 = 0 < 1` yields the same result. -/
def calculate_position_size (config : StrategyConfig) (price : ℚ)
    (account_value : ℚ) : ℤ :=
  let allocated_capital := account_value * (config.capital_allocation_percent / 100)
  let position_size := truncToInt (allocated_capital / price)
  if position_size < 1 then 0 else position_size

/-- `RiskManager.check_risk_limits` over explicit snapshots.  The collaborator
fetches are `Except` values: an `.error` is the awaited call raising, which the
function's `except` handler turns into a rejection.  The second component
records whether `get_account_info()` was reached (used for call counting in
`execute_signal`). -/
def check_risk_limits (config : StrategyConfig) (symbol : String)
    (side : OrderSide) (quantity : ℤ) (price : ℚ)
    (positionsSnapshot : Except String (List Position))
    (accountSnapshot : Except String AccountInfo) : (Bool × String) × Bool :=
  match positionsSnapshot with
  | .error e => ((false, "Risk check error: " ++ e), false)
  | .ok positions =>
    if config.max_positions ≤ positions.length then
      ((false, "Maximum positions limit reached (" ++
        toString config.max_positions ++ ")"), false)
    else if (positions.any (fun p => p.symbol == symbol)) &&
        side == OrderSide.buy then
      ((false, "Already holding position in " ++ symbol), false)
    else
      match accountSnapshot with
      | .error e => ((false, "Risk check error: " ++ e), true)
      | .ok account_info =>
        if account_info.buying_power < (quantity : ℚ) * price then
          ((false, "Insufficient buying power"), true)
        else ((true, "Risk checks passed"), true)

/-! ### `StrategyEngine` (`app/strategy.py`) -/

/-- The engine's two registries (`strategies` / `risk_managers`), both keyed
by strategy name.  A `StochasticCCIStrategy` / `RiskManager` instance is its
config (the shared client is an external collaborator), so entries are
modelled as the configs.  Python `dict`s have unique keys; deletion of a key
is modelled as filtering it out. -/
structure StrategyEngine where
  strategies : List (String × StrategyConfig)
  risk_managers : List (String × StrategyConfig)
deriving DecidableEq, Repr, Inhabited

/-- `name in dict` on a registry. -/
def dictContains (d : List (String × StrategyConfig)) (name : String) : Bool :=
  d.any (fun p => p.1 == name)

/-- `StrategyEngine.remove_strategy`. -/
def remove_strategy (engine : StrategyEngine) (strategy_name : String) :
    StrategyEngine :=
  { strategies :=
      if dictContains engine.strategies strategy_name then
        engine.strategies.filter (fun p => p.1 != strategy_name)
      else engine.strategies
    risk_managers :=
      if dictContains engine.risk_managers strategy_name then
        engine.risk_managers.filter (fun p => p.1 != strategy_name)
      else engine.risk_managers }

/-- The execution-result dictionary of `execute_signal`, as a discriminated
union on its `status` field; messages that interpolate floats are kept as
structured payloads instead of formatted strings. -/
inductive ExecResult where
  | alert (signal : TradingSignal)
  | error (message : String)
  | rejected (message : String)
  | executed (signal : TradingSignal)
  | pending_confirmation (signal : TradingSignal) (quantity : ℤ)
deriving DecidableEq, Repr, Inhabited

/-- How many times each external collaborator was awaited. -/
structure CallCounts where
  account_info : ℕ
  positions : ℕ
  place_order : ℕ
deriving DecidableEq, Repr, Inhabited

/-- The collaborator snapshots available to one `execute_signal` call; an
`.error` value means the corresponding awaited call raises. -/
structure Collaborator where
  account : Except String AccountInfo
  positions : Except String (List Position)
  order : Except String Unit
deriving Repr

/-- `StrategyEngine.execute_signal`, instrumented with collaborator call
counts.  A raised collaborator exception is caught by the outer `except`,
yielding an `error` result.  `calculate_position_size` is called with
`signal.price`; a `None` price raises `TypeError` inside that function's own
`try`, which returns `0`. -/
def execute_signal (engine : StrategyEngine) (signal : TradingSignal)
    (automation_mode : AutomationMode) (c : Collaborator) :
    ExecResult × CallCounts :=
  if automation_mode = AutomationMode.alert_only then
    (.alert signal, ⟨0, 0, 0⟩)
  else
    match (engine.risk_managers.lookup signal.strategy_name : Option StrategyConfig) with
    | none => (.error "Risk manager not found", ⟨0, 0, 0⟩)
    | some config =>
      match c.account with
      | .error e => (.error e, ⟨1, 0, 0⟩)
      | .ok account_info =>
        let quantity :=
          match signal.price with
          | none => 0
          | some p => calculate_position_size config p account_info.equity
        if quantity = 0 then (.error "Position size is zero", ⟨1, 0, 0⟩)
        else
          let price := signal.price.getD 0
          let checked := check_risk_limits config signal.symbol signal.side
            quantity price c.positions c.account
          let counts : CallCounts := ⟨1 + (if checked.2 then 1 else 0), 1, 0⟩
          if checked.1.1 = false then (.rejected checked.1.2, counts)
          else if automation_mode = AutomationMode.auto then
            match c.order with
            | .error e => (.error e, { counts with place_order := 1 })
            | .ok _ => (.executed signal, { counts with place_order := 1 })
          else (.pending_confirmation signal quantity, counts)

/-! ### `NewsSentimentAnalyzer.filter_signals_by_sentiment`
(`app/sentiment.py`) -/

/-- One value of the per-symbol sentiment dictionary; `sentiment_score = none`
models an entry whose dictionary lacks the `'sentiment_score'` key. -/
structure SentimentInfo where
  sentiment_score : Option ℚ
deriving DecidableEq, Repr, Inhabited

/-- `sentiment_data.get(symbol, {}).get('sentiment_score', 0.0)`. -/
def sentimentScoreOf (sentiment_data : List (String × SentimentInfo))
    (symbol : String) : ℚ :=
  match (sentiment_data.lookup symbol : Option SentimentInfo) with
  | none => 0
  | some info => info.sentiment_score.getD 0

/-- `filter_signals_by_sentiment`. -/
def filter_signals_by_sentiment (signals : List TradingSignal)
    (sentiment_data : List (String × SentimentInfo))
    (min_sentiment_score : ℚ) : List TradingSignal :=
  match signals with
  | [] => []
  | signal :: rest =>
    let kept := filter_signals_by_sentiment rest sentiment_data min_sentiment_score
    let sentiment_score := sentimentScoreOf sentiment_data signal.symbol
    if signal.side = OrderSide.buy then
      if min_sentiment_score ≤ sentiment_score then signal :: kept else kept
    else signal :: kept

/-! ### Specification predicates and concrete fixtures -/

/-- The buy condition of the spec, read off the latest/previous augmented
bars: stochastic oversold with bullish crossover, CCI oversold, RSI floor,
and volume confirmation (vacuous when the volume column is absent). -/
def BuyCond (config : StrategyConfig) (latest prev : AugBar) : Prop :=
  (∃ k d, latest.stoch_k = some k ∧ latest.stoch_d = some d ∧
    k < config.stoch_oversold ∧ d < config.stoch_oversold ∧ d < k) ∧
  (∃ v, latest.cci = some v ∧ v < config.cci_oversold) ∧
  (∃ v, latest.rsi = some v ∧ 25 < v) ∧
  (∀ lv pv, latest.volume = some lv → prev.volume = some pv →
    pv * (8 / 10) < lv)

/-- A bar with symmetric half-point high/low around the close and volume
1000, for concrete test series. -/
def mkBarW (h l c : ℚ) : Bar :=
  { high := h, low := l, close := c, volume := some 1000 }

def cfgW1 : StrategyConfig :=
  { name := "s1", stoch_k_period := 2, stoch_d_period := 2, cci_period := 2,
    stoch_oversold := 20, stoch_overbought := 80, cci_oversold := -50,
    cci_overbought := 100, stop_loss_percent := 2,
    capital_allocation_percent := 10, max_positions := 5 }

/-- Fourteen bars: a steady up-trend followed by a two-bar pull-back that
leaves the last bar stochastic-oversold with a bullish crossover and CCI
below −50, while RSI stays well above 25. -/
def barsW1 : List Bar :=
  [mkBarW (201/2) (199/2) 100, mkBarW (203/2) (201/2) 101,
   mkBarW (205/2) (203/2) 102, mkBarW (207/2) (205/2) 103,
   mkBarW (209/2) (207/2) 104, mkBarW (211/2) (209/2) 105,
   mkBarW (213/2) (211/2) 106, mkBarW (215/2) (213/2) 107,
   mkBarW (217/2) (215/2) 108, mkBarW (219/2) (217/2) 109,
   mkBarW (221/2) (219/2) 110, mkBarW (223/2) (221/2) 111,
   mkBarW 106 104 105, mkBarW 105 103 (207/2)]

def cfgW2 : StrategyConfig := { cfgW1 with max_positions := 1 }

def cfgW6 : StrategyConfig := { cfgW1 with stoch_k_period := 14, cci_period := 20 }

def barsW7 : List Bar :=
  [mkBarW 2 1 (3/2), mkBarW 3 2 (5/2), mkBarW (5/2) (3/2) 2]

def signalW4 : TradingSignal :=
  { symbol := "AAPL", side := OrderSide.buy, confidence := 7/10,
    price := some 20000, stop_loss := none, take_profit := none,
    timeframe := "1D", strategy_name := "s1" }

def engineW4 : StrategyEngine :=
  { strategies := [("s1", cfgW1)], risk_managers := [("s1", cfgW1)] }

def collabW4 : Collaborator :=
  { account := Except.ok { equity := 100000, buying_power := 100000 },
    positions := Except.ok [], order := Except.ok () }

def engineW8 : StrategyEngine :=
  { strategies := [("s1", cfgW1), ("s2", cfgW2)],
    risk_managers := [("s1", cfgW1), ("s2", cfgW2)] }

def signalW9 : TradingSignal := { signalW4 with symbol := "TSLA" }

def signalW10 : TradingSignal := { signalW4 with strategy_name := "ghost" }

def engineW10 : StrategyEngine := { strategies := [], risk_managers := [] }

/-! ### Theorems -/

/-- C3: for every positive price and every account equity,
`calculate_position_size` returns `floor(equity * allocationPct/100 / price)`
guarded to `0` when that floor is below `1`, never returns a negative value,
and returns `0` whenever the allocated capital is less than the price. -/
theorem calculate_position_size_spec (config : StrategyConfig)
    (price account_value : ℚ) (hprice : 0 < price) :
    calculate_position_size config price account_value =
      (if ⌊account_value * (config.capital_allocation_percent / 100) / price⌋ < 1
       then 0
       else ⌊account_value * (config.capital_allocation_percent / 100) / price⌋) ∧
    0 ≤ calculate_position_size config price account_value ∧
    (account_value * (config.capital_allocation_percent / 100) < price →
      calculate_position_size config price account_value = 0) := by
  set x := account_value * (config.capital_allocation_percent / 100) / price with hx
  have hmain : calculate_position_size config price account_value =
      (if ⌊x⌋ < 1 then 0 else ⌊x⌋) := by
    unfold calculate_position_size truncToInt
    by_cases h0 : 0 ≤ x
    · simp [← hx, h0]
    · have hceil : ⌈x⌉ ≤ 0 := Int.ceil_le.mpr (by exact_mod_cast le_of_not_le h0)
      have hfloor : ⌊x⌋ ≤ 0 := (Int.floor_le_ceil x).trans hceil
      simp only [← hx, if_neg h0]
      rw [if_pos (by omega), if_pos (by omega)]
  refine ⟨hmain, ?_, ?_⟩
  · rw [hmain]
    split_ifs with h <;> omega
  · intro halloc
    have hlt : x < 1 := by
      rw [hx]
      exact (div_lt_one hprice).mpr halloc
    rw [hmain, if_pos (Int.floor_lt.mpr (by exact_mod_cast hlt))]

/-- C3 witness: with `accountEquity = 100000`, `allocationPercent = 10` and
`price = 50` the sizer returns `200` shares; with `price = 20000` it
returns `0`. -/
theorem calculate_position_size_spec_witness :
    (0:ℚ) < 50 ∧ calculate_position_size cfgW1 50 100000 = 200 ∧
    calculate_position_size cfgW1 20000 100000 = 0 := by
  refine ⟨by norm_num, ?_, ?_⟩
  · have h := (calculate_position_size_spec cfgW1 50 100000 (by norm_num)).1
    rw [h]
    norm_num [cfgW1]
  · have h := (calculate_position_size_spec cfgW1 20000 100000 (by norm_num)).2.2
    exact h (by norm_num [cfgW1])

/-- C5: in `AlertOnly` mode `execute_signal` returns an alert immediately
and calls none of the account-info, positions or place-order
collaborators. -/
theorem execute_signal_alert_only_pure (engine : StrategyEngine)
    (signal : TradingSignal) (c : Collaborator) :
    execute_signal engine signal AutomationMode.alert_only c =
      (ExecResult.alert signal, ⟨0, 0, 0⟩) := by
  unfold execute_signal
  rw [if_pos rfl]

/-- C6: with fewer than `max(stochK_period, cci_period) + 10` bars,
`analyze_symbol` returns `none` (and, being a total function, neither raises
nor returns an error). -/
theorem analyze_symbol_insufficient_history (config : StrategyConfig)
    (symbol : String) (bars : List Bar) (timeframe : String)
    (h : bars.length < max config.stoch_k_period config.cci_period + 10) :
    analyze_symbol config symbol bars timeframe = none := by
  unfold analyze_symbol
  rw [if_pos h]

/-- C6 witness: the empty bar series is below the history floor and yields
no signal. -/
theorem analyze_symbol_insufficient_history_witness :
    ([] : List Bar).length < max cfgW6.stoch_k_period cfgW6.cci_period + 10 ∧
    analyze_symbol cfgW6 "AAPL" [] "1D" = none :=
  ⟨by decide, analyze_symbol_insufficient_history cfgW6 "AAPL" [] "1D" (by decide)⟩

/-- C10: in `Auto` or `SemiAuto` mode, a signal whose strategy name is not in
the risk-manager registry yields the error result
`"Risk manager not found"` with zero collaborator calls (so no sizing, no
risk check, no order). -/
theorem execute_signal_missing_risk_manager (engine : StrategyEngine)
    (signal : TradingSignal) (mode : AutomationMode) (c : Collaborator)
    (hmode : mode = AutomationMode.auto ∨ mode = AutomationMode.semi_auto)
    (hlookup : (engine.risk_managers.lookup signal.strategy_name :
      Option StrategyConfig) = none) :
    execute_signal engine signal mode c =
      (ExecResult.error "Risk manager not found", ⟨0, 0, 0⟩) := by
  have hne : ¬ mode = AutomationMode.alert_only := by
    rcases hmode with rfl | rfl <;> decide
  unfold execute_signal
  rw [if_neg hne, hlookup]

/-- C10 witness: an engine with an empty registry in `Auto` mode. -/
theorem execute_signal_missing_risk_manager_witness :
    ((engineW10.risk_managers.lookup signalW10.strategy_name :
      Option StrategyConfig) = none) ∧
    execute_signal engineW10 signalW10 AutomationMode.auto collabW4 =
      (ExecResult.error "Risk manager not found", ⟨0, 0, 0⟩) :=
  ⟨rfl, execute_signal_missing_risk_manager engineW10 signalW10
    AutomationMode.auto collabW4 (Or.inl rfl) rfl⟩

/-- C4 counterexample: with a found risk manager, a healthy account snapshot
and a price too high for the allocated capital, position sizing returns `0`
and the dispatcher returns a result with status `error` (message
`"Position size is zero"`) — not a non-error "dropped" outcome as the claim
states. -/
theorem execute_signal_zero_size_cex :
    calculate_position_size cfgW1 20000 100000 = 0 ∧
    execute_signal engineW4 signalW4 AutomationMode.auto collabW4 =
      (ExecResult.error "Position size is zero", ⟨1, 0, 0⟩) := by
  have h1 : calculate_position_size cfgW1 20000 100000 = 0 := by
    unfold calculate_position_size truncToInt
    norm_num [cfgW1]
  refine ⟨h1, ?_⟩
  simp [execute_signal, engineW4, signalW4, collabW4, List.lookup, h1]

/-- C4 amended: for every signal dispatched in a non-`AlertOnly` mode whose
risk manager is found, whose account snapshot succeeds and whose position
sizing returns `0`, `execute_signal` returns the error-status result
`"Position size is zero"` — a no-trade outcome in the sense that the
place-order collaborator is never called, but reported as an error result,
not as a distinct "dropped" status. -/
theorem execute_signal_zero_size_error (engine : StrategyEngine)
    (signal : TradingSignal) (mode : AutomationMode) (c : Collaborator)
    (config : StrategyConfig) (account_info : AccountInfo) (p : ℚ)
    (hmode : ¬ mode = AutomationMode.alert_only)
    (hrm : (engine.risk_managers.lookup signal.strategy_name :
      Option StrategyConfig) = some config)
    (hacct : c.account = Except.ok account_info)
    (hp : signal.price = some p)
    (hq : calculate_position_size config p account_info.equity = 0) :
    execute_signal engine signal mode c =
      (ExecResult.error "Position size is zero", ⟨1, 0, 0⟩) := by
  unfold execute_signal
  rw [if_neg hmode, hrm, hacct, hp]
  simp [hq]

/-- C4 amended witness: the concrete counterexample state satisfies the
amended description. -/
theorem execute_signal_zero_size_error_witness :
    ((engineW4.risk_managers.lookup signalW4.strategy_name :
      Option StrategyConfig) = some cfgW1) ∧
    signalW4.price = some 20000 ∧
    calculate_position_size cfgW1 20000 100000 = 0 ∧
    execute_signal engineW4 signalW4 AutomationMode.semi_auto collabW4 =
      (ExecResult.error "Position size is zero", ⟨1, 0, 0⟩) :=
  ⟨rfl, rfl, by unfold calculate_position_size truncToInt; norm_num [cfgW1],
    execute_signal_zero_size_error engineW4 signalW4 AutomationMode.semi_auto
      collabW4 cfgW1 { equity := 100000, buying_power := 100000 } 20000
      (by decide) rfl rfl rfl
      (by unfold calculate_position_size truncToInt; norm_num [cfgW1])⟩

/-- C2: `check_risk_limits` allows a trade exactly when both snapshots were
assembled without error, the position count is below the maximum, no BUY into
an already-held symbol is attempted, and the order value fits the buying
power; hitting the maximum yields the specific rejection reason, and a
positions-snapshot error yields a rejection (fail-closed), not an
exception. -/
theorem check_risk_limits_allowed_iff (config : StrategyConfig)
    (symbol : String) (side : OrderSide) (quantity : ℤ) (price : ℚ)
    (positionsSnapshot : Except String (List Position))
    (accountSnapshot : Except String AccountInfo) :
    ((check_risk_limits config symbol side quantity price positionsSnapshot
        accountSnapshot).1.1 = true ↔
      (∃ positions account_info,
        positionsSnapshot = Except.ok positions ∧
        accountSnapshot = Except.ok account_info ∧
        positions.length < config.max_positions ∧
        ¬(side = OrderSide.buy ∧ ∃ p ∈ positions, p.symbol = symbol) ∧
        (quantity : ℚ) * price ≤ account_info.buying_power)) ∧
    (∀ positions, positionsSnapshot = Except.ok positions →
      positions.length = config.max_positions →
      (check_risk_limits config symbol side quantity price positionsSnapshot
          accountSnapshot).1 =
        (false, "Maximum positions limit reached (" ++
          toString config.max_positions ++ ")")) ∧
    (∀ e, positionsSnapshot = Except.error e →
      (check_risk_limits config symbol side quantity price positionsSnapshot
          accountSnapshot).1 = (false, "Risk check error: " ++ e)) := by
  refine ⟨?_, ?_, ?_⟩
  · cases positionsSnapshot with
    | error e =>
      refine iff_of_false (by simp [check_risk_limits]) ?_
      rintro ⟨ps2, a2, hps, -⟩
      exact absurd hps (by simp)
    | ok positions =>
      cases accountSnapshot with
      | error e =>
        simp only [check_risk_limits]
        split_ifs with h1 h2 <;>
        · refine iff_of_false (by simp) ?_
          rintro ⟨ps2, a2, hps, ha2, -⟩
          exact absurd ha2 (by simp)
      | ok account_info =>
        simp only [check_risk_limits]
        split_ifs with h1 h2 h3
        · refine iff_of_false (by simp) ?_
          rintro ⟨ps2, a2, hps, ha2, hlen, -, -⟩
          injection hps with hps
          subst hps
          omega
        · refine iff_of_false (by simp) ?_
          rintro ⟨ps2, a2, hps, ha2, hlen, hheld, hbp⟩
          injection hps with hps
          subst hps
          rw [Bool.and_eq_true] at h2
          obtain ⟨hany, hbuy⟩ := h2
          rcases List.any_eq_true.mp hany with ⟨p, hp, hpeq⟩
          exact hheld ⟨beq_iff_eq.mp hbuy, p, hp, beq_iff_eq.mp hpeq⟩
        · refine iff_of_false (by simp) ?_
          rintro ⟨ps2, a2, hps, ha2, hlen, hheld, hbp⟩
          injection hps with hps
          injection ha2 with ha2
          subst hps
          subst ha2
          linarith
        · refine iff_of_true rfl
            ⟨positions, account_info, rfl, rfl, by omega, ?_, le_of_not_lt h3⟩
          rintro ⟨hbuy, p, hp, hps⟩
          refine h2 ?_
          rw [Bool.and_eq_true]
          exact ⟨List.any_eq_true.mpr ⟨p, hp, beq_iff_eq.mpr hps⟩,
            beq_iff_eq.mpr hbuy⟩
  · intro positions hps hlen
    subst hps
    simp only [check_risk_limits]
    rw [if_pos (by omega)]
  · intro e he
    subst he
    rfl

/-- C2 witness: with `max_positions = 1` and one held position, even a
sell order with ample buying power is rejected with the max-positions
reason. -/
theorem check_risk_limits_allowed_iff_witness :
    ([Position.mk "MSFT"] : List Position).length = cfgW2.max_positions ∧
    (check_risk_limits cfgW2 "AAPL" OrderSide.sell 1 10
        (Except.ok [Position.mk "MSFT"])
        (Except.ok (AccountInfo.mk 10000 10000))).1 =
      (false, "Maximum positions limit reached (" ++
        toString cfgW2.max_positions ++ ")") :=
  ⟨by decide,
    (check_risk_limits_allowed_iff cfgW2 "AAPL" OrderSide.sell 1 10
      (Except.ok [Position.mk "MSFT"])
      (Except.ok (AccountInfo.mk 10000 10000))).2.1
      [Position.mk "MSFT"] rfl (by decide)⟩

/-- Removing a key from a registry leaves no entry with that key. -/
theorem dictContains_filter_self (l : List (String × StrategyConfig))
    (name : String) :
    dictContains (l.filter (fun p => p.1 != name)) name = false := by
  rw [Bool.eq_false_iff]
  intro h
  rcases List.any_eq_true.mp h with ⟨p, hp, hpeq⟩
  rcases List.mem_filter.mp hp with ⟨-, hne⟩
  exact absurd (beq_iff_eq.mp hpeq) (bne_iff_ne.mp hne)

/-- C8: `remove_strategy` is idempotent on every registry state, and on a
name present in neither registry it is a no-op (and, being total, raises no
error). -/
theorem remove_strategy_idempotent (engine : StrategyEngine) (name : String) :
    remove_strategy (remove_strategy engine name) name =
      remove_strategy engine name ∧
    (dictContains engine.strategies name = false →
      dictContains engine.risk_managers name = false →
      remove_strategy engine name = engine) := by
  constructor
  · unfold remove_strategy
    by_cases hs : dictContains engine.strategies name = true <;>
      by_cases hr : dictContains engine.risk_managers name = true <;>
      simp only [hs, hr, if_pos, if_neg, Bool.not_eq_true] at * <;>
      simp [hs, hr, dictContains_filter_self]
  · intro hs hr
    unfold remove_strategy
    rw [hs, hr]
    rfl

/-- C8 witness: removing an absent name from a two-strategy registry twice
changes nothing. -/
theorem remove_strategy_idempotent_witness :
    dictContains engineW8.strategies "ghost" = false ∧
    dictContains engineW8.risk_managers "ghost" = false ∧
    remove_strategy (remove_strategy engineW8 "ghost") "ghost" =
      remove_strategy engineW8 "ghost" ∧
    remove_strategy engineW8 "ghost" = engineW8 :=
  ⟨rfl, rfl, (remove_strategy_idempotent engineW8 "ghost").1,
    (remove_strategy_idempotent engineW8 "ghost").2 rfl rfl⟩

/-- C9: the sentiment gate returns exactly the order-preserving
subsequence keeping every SELL signal and the BUY signals whose symbol
scores at least the threshold; a symbol absent from the map scores `0`,
and a neutral (absent) BUY signal passes the default threshold `-0.1`. -/
theorem filter_signals_by_sentiment_spec :
    (∀ (signals : List TradingSignal)
       (sentiment_data : List (String × SentimentInfo)) (min_score : ℚ),
      filter_signals_by_sentiment signals sentiment_data min_score =
        signals.filter (fun s => s.side != OrderSide.buy ||
          decide (min_score ≤ sentimentScoreOf sentiment_data s.symbol))) ∧
    (∀ (sentiment_data : List (String × SentimentInfo)) (symbol : String),
      (sentiment_data.lookup symbol : Option SentimentInfo) = none →
      sentimentScoreOf sentiment_data symbol = 0) ∧
    (∀ (s : TradingSignal) (sentiment_data : List (String × SentimentInfo)),
      s.side = OrderSide.buy →
      (sentiment_data.lookup s.symbol : Option SentimentInfo) = none →
      filter_signals_by_sentiment [s] sentiment_data (-(1/10)) = [s]) := by
  have hscore : ∀ (sentiment_data : List (String × SentimentInfo))
      (symbol : String),
      (sentiment_data.lookup symbol : Option SentimentInfo) = none →
      sentimentScoreOf sentiment_data symbol = 0 := by
    intro sentiment_data symbol h
    unfold sentimentScoreOf
    rw [h]
  refine ⟨?_, hscore, ?_⟩
  · intro signals sentiment_data min_score
    induction signals with
    | nil => rfl
    | cons s rest ih =>
      rw [List.filter_cons]
      unfold filter_signals_by_sentiment
      by_cases hside : s.side = OrderSide.buy
      · by_cases hsc : min_score ≤ sentimentScoreOf sentiment_data s.symbol
        · rw [if_pos hside, if_pos hsc, ih, if_pos (by simp [hside, hsc])]
        · rw [if_pos hside, if_neg hsc, ih, if_neg (by simp [hside, hsc])]
      · rw [if_neg hside, ih, if_pos (by simp [hside])]
  · intro s sentiment_data hside hmissing
    unfold filter_signals_by_sentiment
    rw [if_pos hside, if_pos (by rw [hscore sentiment_data s.symbol hmissing]; norm_num)]
    rfl

/-- C9 witness: a BUY signal for a symbol with no sentiment entry passes
the default threshold unchanged. -/
theorem filter_signals_by_sentiment_spec_witness :
    signalW9.side = OrderSide.buy ∧
    (([] : List (String × SentimentInfo)).lookup signalW9.symbol :
      Option SentimentInfo) = none ∧
    filter_signals_by_sentiment [signalW9] [] (-(1/10)) = [signalW9] :=
  ⟨rfl, rfl, filter_signals_by_sentiment_spec.2.2 signalW9 [] rfl rfl⟩

/-- A nonempty list is its default-head consed onto its tail. -/
theorem cons_headD_tail {α : Type _} (xs : List α) (d : α) (h : xs ≠ []) :
    xs = xs.headD d :: xs.tail := by
  cases xs with
  | nil => exact absurd rfl h
  | cons a l => rfl

/-- The augmented frame is aligned 1:1 with the input bars. -/
theorem length_augmentedOf (config : StrategyConfig) (bars : List Bar) :
    (augmentedOf config bars).length = bars.length := by
  simp [augmentedOf, calculate_all_indicators]

/-- `volumeOkB` holds exactly when any present volumes confirm. -/
theorem volumeOkB_iff (latest prev : AugBar) :
    volumeOkB latest prev = true ↔
      ∀ lv pv, latest.volume = some lv → prev.volume = some pv →
        pv * (8 / 10) < lv := by
  unfold volumeOkB
  rcases latest with ⟨c, vol, sk, sd, cc, rs⟩
  rcases prev with ⟨c2, vol2, sk2, sd2, cc2, rs2⟩
  cases vol <;> cases vol2 <;> simp

/-- The boolean gate of `_check_buy_conditions` decides `BuyCond`. -/
theorem check_buy_cond_iff (config : StrategyConfig) (latest prev : AugBar) :
    (oltB latest.stoch_k config.stoch_oversold &&
     oltB latest.stoch_d config.stoch_oversold &&
     ogtPairB latest.stoch_k latest.stoch_d &&
     oltB latest.cci config.cci_oversold &&
     ogtB latest.rsi 25 &&
     volumeOkB latest prev) = true ↔ BuyCond config latest prev := by
  rw [Bool.and_eq_true, volumeOkB_iff]
  rcases latest with ⟨c, vol, sk, sd, cc, rs⟩
  cases sk <;> cases sd <;> cases cc <;> cases rs <;>
    simp [oltB, ogtB, ogtPairB, BuyCond, Bool.and_eq_true, and_assoc]

/-- `_check_buy_conditions` with its `let`s zeta-reduced. -/
theorem check_buy_conditions_eq (config : StrategyConfig)
    (latest prev : AugBar) :
    check_buy_conditions config latest prev =
      (if (oltB latest.stoch_k config.stoch_oversold &&
           oltB latest.stoch_d config.stoch_oversold &&
           ogtPairB latest.stoch_k latest.stoch_d &&
           oltB latest.cci config.cci_oversold &&
           ogtB latest.rsi 25 &&
           volumeOkB latest prev) = true then
        some { confidence := 7 / 10
               stop_loss := latest.close * (1 - config.stop_loss_percent / 100)
               take_profit :=
                 latest.close * (1 + config.stop_loss_percent * 2 / 100) }
      else none) := rfl

/-- `_check_buy_conditions` succeeds exactly on `BuyCond`. -/
theorem check_buy_conditions_some_iff (config : StrategyConfig)
    (latest prev : AugBar) :
    (∃ info, check_buy_conditions config latest prev = some info) ↔
      BuyCond config latest prev := by
  rw [check_buy_conditions_eq]
  split_ifs with hb
  · exact iff_of_true ⟨_, rfl⟩ ((check_buy_cond_iff config latest prev).mp hb)
  · refine iff_of_false ?_ ?_
    · rintro ⟨info, hinfo⟩
      cases hinfo
    · intro hc
      exact hb ((check_buy_cond_iff config latest prev).mpr hc)

/-- A successful buy check returns the fixed confidence and the documented
stop-loss / take-profit levels. -/
theorem check_buy_conditions_levels (config : StrategyConfig)
    (latest prev : AugBar) (info : SignalLevels)
    (h : check_buy_conditions config latest prev = some info) :
    info = { confidence := 7 / 10
             stop_loss := latest.close * (1 - config.stop_loss_percent / 100)
             take_profit :=
               latest.close * (1 + config.stop_loss_percent * 2 / 100) } := by
  rw [check_buy_conditions_eq] at h
  split_ifs at h with hb
  injection h with h
  exact h.symm

/-- C1: with enough history, `analyze_symbol` returns a BUY signal exactly
when the buy condition holds on the latest augmented bar (stochastic
oversold with bullish crossover, CCI oversold, RSI above 25, volume
confirmation when present) — regardless of the sell conditions, since buy is
checked first — and that signal carries confidence `0.7`, the latest close
as price, and the documented stop-loss / take-profit levels. -/
theorem analyze_symbol_buy_iff (config : StrategyConfig) (symbol : String)
    (bars : List Bar) (timeframe : String)
    (h : max config.stoch_k_period config.cci_period + 10 ≤ bars.length) :
    ((∃ sig, analyze_symbol config symbol bars timeframe = some sig ∧
        sig.side = OrderSide.buy) ↔
      BuyCond config (latestOf config bars) (prevOf config bars)) ∧
    (∀ sig, analyze_symbol config symbol bars timeframe = some sig →
      sig.side = OrderSide.buy →
      sig.confidence = 7 / 10 ∧
      sig.price = some (latestOf config bars).close ∧
      sig.stop_loss = some ((latestOf config bars).close *
        (1 - config.stop_loss_percent / 100)) ∧
      sig.take_profit = some ((latestOf config bars).close *
        (1 + config.stop_loss_percent * 2 / 100))) := by
  have hpos : 0 < (augmentedOf config bars).reverse.length := by
    rw [List.length_reverse, length_augmentedOf]
    omega
  have hne : (augmentedOf config bars).reverse ≠ [] := List.length_pos.mp hpos
  have hcons : (augmentedOf config bars).reverse =
      latestOf config bars :: (augmentedOf config bars).reverse.tail :=
    cons_headD_tail _ _ hne
  have hred : analyze_symbol config symbol bars timeframe =
      (match check_buy_conditions config (latestOf config bars)
          (prevOf config bars) with
       | some buy_signal =>
         some { symbol := symbol
                side := OrderSide.buy
                confidence := buy_signal.confidence
                price := some (latestOf config bars).close
                stop_loss := some buy_signal.stop_loss
                take_profit := some buy_signal.take_profit
                timeframe := timeframe
                strategy_name := config.name }
       | none =>
         match check_sell_conditions config (latestOf config bars)
             (prevOf config bars) with
         | some sell_signal =>
           some { symbol := symbol
                  side := OrderSide.sell
                  confidence := sell_signal.confidence
                  price := some (latestOf config bars).close
                  stop_loss := some sell_signal.stop_loss
                  take_profit := some sell_signal.take_profit
                  timeframe := timeframe
                  strategy_name := config.name }
         | none => none) := by
    unfold analyze_symbol
    rw [if_neg (not_lt.mpr h), hcons]
    exact rfl
  rcases hcb : check_buy_conditions config (latestOf config bars)
      (prevOf config bars) with _ | info
  · rcases hcs : check_sell_conditions config (latestOf config bars)
        (prevOf config bars) with _ | sinfo
    · have hres : analyze_symbol config symbol bars timeframe = none := by
        rw [hred, hcb, hcs]
      constructor
      · refine iff_of_false ?_ ?_
        · rintro ⟨sig, hsig, -⟩
          rw [hres] at hsig
          cases hsig
        · intro hc
          rcases (check_buy_conditions_some_iff config _ _).mpr hc with
            ⟨info, hinfo⟩
          cases hinfo.symm.trans hcb
      · intro sig hsig
        rw [hres] at hsig
        cases hsig
    · have hres : analyze_symbol config symbol bars timeframe =
          some { symbol := symbol
                 side := OrderSide.sell
                 confidence := sinfo.confidence
                 price := some (latestOf config bars).close
                 stop_loss := some sinfo.stop_loss
                 take_profit := some sinfo.take_profit
                 timeframe := timeframe
                 strategy_name := config.name } := by
        rw [hred, hcb, hcs]
      constructor
      · refine iff_of_false ?_ ?_
        · rintro ⟨sig, hsig, hside⟩
          rw [hres] at hsig
          injection hsig with hsig
          subst hsig
          cases hside
        · intro hc
          rcases (check_buy_conditions_some_iff config _ _).mpr hc with
            ⟨info, hinfo⟩
          cases hinfo.symm.trans hcb
      · intro sig hsig hside
        rw [hres] at hsig
        injection hsig with hsig
        subst hsig
        cases hside
  · have hres : analyze_symbol config symbol bars timeframe =
        some { symbol := symbol
               side := OrderSide.buy
               confidence := info.confidence
               price := some (latestOf config bars).close
               stop_loss := some info.stop_loss
               take_profit := some info.take_profit
               timeframe := timeframe
               strategy_name := config.name } := by
      rw [hred, hcb]
    have hinfo := check_buy_conditions_levels config (latestOf config bars)
      (prevOf config bars) info hcb
    constructor
    · exact iff_of_true ⟨_, hres, rfl⟩
        ((check_buy_conditions_some_iff config _ _).mp ⟨info, hcb⟩)
    · intro sig hsig hside
      rw [hres] at hsig
      injection hsig with hsig
      subst hsig
      exact ⟨by rw [hinfo], rfl, by rw [hinfo], by rw [hinfo]⟩

/-- C1 witness: a fourteen-bar series whose pull-back produces a BUY
signal under `cfgW1`. -/
theorem analyze_symbol_buy_iff_witness :
    max cfgW1.stoch_k_period cfgW1.cci_period + 10 ≤ barsW1.length ∧
    ((∃ sig, analyze_symbol cfgW1 "AAPL" barsW1 "1D" = some sig ∧
        sig.side = OrderSide.buy) ↔
      BuyCond cfgW1 (latestOf cfgW1 barsW1) (prevOf cfgW1 barsW1)) :=
  ⟨by decide, (analyze_symbol_buy_iff cfgW1 "AAPL" barsW1 "1D" (by decide)).1⟩

/-- A rolling window is a sublist of its source series. -/
theorem window_sublist {α : Type _} (w i : ℕ) (xs : List α) :
    (window w i xs).Sublist xs :=
  (List.drop_sublist _ _).trans (List.take_sublist _ _)

/-- A filled rolling window has exactly `w` elements. -/
theorem window_length {α : Type _} (xs : List α) (w i : ℕ)
    (hwi : w ≤ i + 1) (hi : i < xs.length) :
    (window w i xs).length = w := by
  simp only [window, List.length_drop, List.length_take]
  omega

/-- The current element belongs to its own filled trailing window. -/
theorem getD_mem_window {α : Type _} (xs : List α) (d : α) (w i : ℕ)
    (hw : 1 ≤ w) (hwi : w ≤ i + 1) (hi : i < xs.length) :
    xs.getD i d ∈ window w i xs := by
  have hlen : (window w i xs).length = w := window_length xs w i hwi hi
  have hidx : w - 1 < (window w i xs).length := by omega
  have hidx2 : i + 1 - w + (w - 1) = i := by omega
  have hget : (window w i xs)[w - 1] = xs[i] := by
    show ((xs.take (i + 1)).drop (i + 1 - w))[w - 1] = xs[i]
    rw [List.getElem_drop, List.getElem_take]
    congr 1
  rw [List.getD_eq_getElem xs d hi, ← hget]
  exact List.getElem_mem hidx

theorem foldl_min_le_init (xs : List ℚ) (b : ℚ) : xs.foldl min b ≤ b := by
  induction xs generalizing b with
  | nil => exact le_refl b
  | cons x l ih => exact (ih (min b x)).trans (min_le_left b x)

theorem foldl_min_le_mem :
    ∀ (xs : List ℚ) (b a : ℚ), a ∈ xs → xs.foldl min b ≤ a
  | [], _, _, h => absurd h (List.not_mem_nil _)
  | x :: l, b, a, h => by
    rcases List.mem_cons.mp h with rfl | h2
    · exact (foldl_min_le_init l (min b a)).trans (min_le_right b a)
    · exact foldl_min_le_mem l (min b x) a h2

/-- `listMin` bounds every member from below. -/
theorem listMin_le (xs : List ℚ) (a : ℚ) (h : a ∈ xs) : listMin xs ≤ a := by
  cases xs with
  | nil => cases h
  | cons x l =>
    rcases List.mem_cons.mp h with rfl | h2
    · exact foldl_min_le_init l a
    · exact foldl_min_le_mem l x a h2

theorem le_foldl_max_init (xs : List ℚ) (b : ℚ) : b ≤ xs.foldl max b := by
  induction xs generalizing b with
  | nil => exact le_refl b
  | cons x l ih => exact (le_max_left b x).trans (ih (max b x))

theorem le_foldl_max_mem :
    ∀ (xs : List ℚ) (b a : ℚ), a ∈ xs → a ≤ xs.foldl max b
  | [], _, _, h => absurd h (List.not_mem_nil _)
  | x :: l, b, a, h => by
    rcases List.mem_cons.mp h with rfl | h2
    · exact (le_max_right b a).trans (le_foldl_max_init l (max b a))
    · exact le_foldl_max_mem l (max b x) a h2

/-- `listMax` bounds every member from above. -/
theorem le_listMax (xs : List ℚ) (a : ℚ) (h : a ∈ xs) : a ≤ listMax xs := by
  cases xs with
  | nil => cases h
  | cons x l =>
    rcases List.mem_cons.mp h with rfl | h2
    · exact le_foldl_max_init l a
    · exact le_foldl_max_mem l x a h2

theorem listSum_le_length_mul (xs : List ℚ) (c : ℚ) (h : ∀ x ∈ xs, x ≤ c) :
    xs.sum ≤ (xs.length : ℚ) * c := by
  induction xs with
  | nil => simp
  | cons x l ih =>
    simp only [List.sum_cons, List.length_cons]
    have h1 : x ≤ c := h x (List.mem_cons_self x l)
    have h2 : l.sum ≤ (l.length : ℚ) * c :=
      ih (fun y hy => h y (List.mem_cons_of_mem x hy))
    push_cast
    ring_nf
    nlinarith [h1, h2]

theorem length_mul_le_listSum (xs : List ℚ) (c : ℚ) (h : ∀ x ∈ xs, c ≤ x) :
    (xs.length : ℚ) * c ≤ xs.sum := by
  induction xs with
  | nil => simp
  | cons x l ih =>
    simp only [List.sum_cons, List.length_cons]
    have h1 : c ≤ x := h x (List.mem_cons_self x l)
    have h2 : (l.length : ℚ) * c ≤ l.sum :=
      ih (fun y hy => h y (List.mem_cons_of_mem x hy))
    push_cast
    ring_nf
    nlinarith [h1, h2]

/-- A mean of nonnegative values is nonnegative (including the degenerate
empty case, where `listMean [] = 0`). -/
theorem listMean_nonneg (xs : List ℚ) (h : ∀ x ∈ xs, 0 ≤ x) :
    0 ≤ listMean xs := by
  unfold listMean
  apply div_nonneg
  · have := length_mul_le_listSum xs 0 h
    simpa using this
  · positivity

/-- A mean of values at most `c ≥ 0` is at most `c`. -/
theorem listMean_le_of_le (xs : List ℚ) (c : ℚ) (hc : 0 ≤ c)
    (h : ∀ x ∈ xs, x ≤ c) : listMean xs ≤ c := by
  unfold listMean
  rcases eq_or_ne xs [] with rfl | hne
  · simpa using hc
  · have hlen : 0 < (xs.length : ℚ) := by
      exact_mod_cast List.length_pos.mpr hne
    rw [div_le_iff₀ hlen]
    have := listSum_le_length_mul xs c h
    linarith

/-- Every element produced by a successful `seqOption` came from the
input list. -/
theorem seqOption_mem (l : List (Option ℚ)) (ys : List ℚ)
    (h : seqOption l = some ys) : ∀ y ∈ ys, some y ∈ l := by
  induction l generalizing ys with
  | nil =>
    injection h with h
    subst h
    intro y hy
    cases hy
  | cons o t ih =>
    cases o with
    | none => cases h
    | some x =>
      simp only [seqOption] at h
      rcases Option.map_eq_some'.mp h with ⟨zs, hzs, hys⟩
      subst hys
      intro y hy
      rcases List.mem_cons.mp hy with rfl | hy2
      · exact List.mem_cons_self _ _
      · exact List.mem_cons_of_mem _ (ih zs hzs y hy2)

/-- Every defined `%K` value lies in `[0, 100]` when each bar satisfies
`low ≤ close ≤ high`. -/
theorem stochKAt_bounds (k_period : ℕ) (bars : List Bar) (i : ℕ)
    (hi : i < bars.length)
    (hb : ∀ b ∈ bars, b.low ≤ b.close ∧ b.close ≤ b.high)
    (v : ℚ) (h : stochKAt k_period bars i = some v) : 0 ≤ v ∧ v ≤ 100 := by
  unfold stochKAt at h
  split_ifs at h with hcond
  obtain ⟨hw, hwi⟩ := hcond
  have h2 : (if listMax (window k_period i (highs bars)) =
        listMin (window k_period i (lows bars)) then none
      else some (100 * (((closes bars).getD i 0 -
        listMin (window k_period i (lows bars))) /
        (listMax (window k_period i (highs bars)) -
          listMin (window k_period i (lows bars)))))) = some v := h
  clear h
  split_ifs at h2 with hflat
  injection h2 with hv
  subst hv
  have hlow_len : i < (lows bars).length := by simpa [lows] using hi
  have hhigh_len : i < (highs bars).length := by simpa [highs] using hi
  have hclose_len : i < (closes bars).length := by simpa [closes] using hi
  have hmemlow : (lows bars).getD i 0 ∈ window k_period i (lows bars) :=
    getD_mem_window _ _ _ _ hw hwi hlow_len
  have hmemhigh : (highs bars).getD i 0 ∈ window k_period i (highs bars) :=
    getD_mem_window _ _ _ _ hw hwi hhigh_len
  have hll : listMin (window k_period i (lows bars)) ≤ (lows bars).getD i 0 :=
    listMin_le _ _ hmemlow
  have hhh : (highs bars).getD i 0 ≤ listMax (window k_period i (highs bars)) :=
    le_listMax _ _ hmemhigh
  have hbar := hb (bars.getD i default)
    (by rw [List.getD_eq_getElem _ _ hi]; exact List.getElem_mem hi)
  have hloweq : (lows bars).getD i 0 = (bars.getD i default).low := by
    rw [List.getD_eq_getElem _ _ hlow_len, List.getD_eq_getElem _ _ hi]
    simp [lows]
  have hhigheq : (highs bars).getD i 0 = (bars.getD i default).high := by
    rw [List.getD_eq_getElem _ _ hhigh_len, List.getD_eq_getElem _ _ hi]
    simp [highs]
  have hcloseeq : (closes bars).getD i 0 = (bars.getD i default).close := by
    rw [List.getD_eq_getElem _ _ hclose_len, List.getD_eq_getElem _ _ hi]
    simp [closes]
  have h1 : listMin (window k_period i (lows bars)) ≤
      (closes bars).getD i 0 := by
    rw [hcloseeq]
    rw [hloweq] at hll
    linarith [hbar.1]
  have h2 : (closes bars).getD i 0 ≤
      listMax (window k_period i (highs bars)) := by
    rw [hcloseeq]
    rw [hhigheq] at hhh
    linarith [hbar.2]
  have hlt : listMin (window k_period i (lows bars)) <
      listMax (window k_period i (highs bars)) :=
    lt_of_le_of_ne (h1.trans h2) (fun e => hflat e.symm)
  have hd : 0 < listMax (window k_period i (highs bars)) -
      listMin (window k_period i (lows bars)) := sub_pos.mpr hlt
  constructor
  · exact mul_nonneg (by norm_num) (div_nonneg (sub_nonneg.mpr h1) hd.le)
  · have hle1 : ((closes bars).getD i 0 -
        listMin (window k_period i (lows bars))) /
        (listMax (window k_period i (highs bars)) -
          listMin (window k_period i (lows bars))) ≤ 1 :=
      (div_le_one hd).mpr (by linarith)
    nlinarith [hle1]

/-- Every defined `%D` value is a mean of defined `%K` values, hence in
`[0, 100]` whenever those are. -/
theorem stochDAt_bounds (d_period : ℕ) (ks : List (Option ℚ)) (i : ℕ)
    (hks : ∀ x ∈ ks, ∀ y, x = some y → 0 ≤ y ∧ y ≤ 100)
    (v : ℚ) (h : stochDAt d_period ks i = some v) : 0 ≤ v ∧ v ≤ 100 := by
  unfold stochDAt at h
  split_ifs at h with hcond
  rcases Option.map_eq_some'.mp h with ⟨ws, hws, hv⟩
  subst hv
  have hmem : ∀ y ∈ ws, 0 ≤ y ∧ y ≤ 100 := by
    intro y hy
    have hwin : some y ∈ window d_period i ks := seqOption_mem _ _ hws y hy
    exact hks _ ((window_sublist _ _ _).mem hwin) y rfl
  exact ⟨listMean_nonneg ws (fun y hy => (hmem y hy).1),
    listMean_le_of_le ws 100 (by norm_num) (fun y hy => (hmem y hy).2)⟩

theorem gainsOf_nonneg (cs : List ℚ) : ∀ x ∈ gainsOf cs, 0 ≤ x := by
  intro x hx
  unfold gainsOf at hx
  rcases List.mem_map.mp hx with ⟨j, hj, rfl⟩
  split_ifs
  · exact le_refl 0
  · exact le_max_right _ _

theorem lossesOf_nonneg (cs : List ℚ) : ∀ x ∈ lossesOf cs, 0 ≤ x := by
  intro x hx
  unfold lossesOf at hx
  rcases List.mem_map.mp hx with ⟨j, hj, rfl⟩
  split_ifs
  · exact le_refl 0
  · exact le_max_right _ _

/-- Every defined RSI value lies in `[0, 100]`. -/
theorem rsiAt_bounds (period : ℕ) (cs : List ℚ) (i : ℕ) (v : ℚ)
    (h : rsiAt period cs i = some v) : 0 ≤ v ∧ v ≤ 100 := by
  unfold rsiAt at h
  split_ifs at h with hcond
  have h2 : (if listMean (window period i (lossesOf cs)) = 0 then
        (if 0 < listMean (window period i (gainsOf cs)) then some (100:ℚ)
         else none)
      else some (100 - 100 / (1 + listMean (window period i (gainsOf cs)) /
        listMean (window period i (lossesOf cs))))) = some v := h
  clear h
  split_ifs at h2 with hloss hgain
  · injection h2 with h2
    subst h2
    norm_num
  · injection h2 with hv
    subst hv
    have hg : 0 ≤ listMean (window period i (gainsOf cs)) :=
      listMean_nonneg _
        (fun x hx => gainsOf_nonneg cs x ((window_sublist _ _ _).mem hx))
    have hl0 : 0 ≤ listMean (window period i (lossesOf cs)) :=
      listMean_nonneg _
        (fun x hx => lossesOf_nonneg cs x ((window_sublist _ _ _).mem hx))
    have hl : 0 < listMean (window period i (lossesOf cs)) :=
      lt_of_le_of_ne hl0 (Ne.symm hloss)
    have hgl : 0 ≤ listMean (window period i (gainsOf cs)) /
        listMean (window period i (lossesOf cs)) := div_nonneg hg hl.le
    have h2 : (0:ℚ) < 1 + listMean (window period i (gainsOf cs)) /
        listMean (window period i (lossesOf cs)) := by linarith
    have h3 : 100 / (1 + listMean (window period i (gainsOf cs)) /
        listMean (window period i (lossesOf cs))) ≤ 100 :=
      div_le_self (by norm_num) (by linarith)
    have h4 : 0 < 100 / (1 + listMean (window period i (gainsOf cs)) /
        listMean (window period i (lossesOf cs))) := by positivity
    constructor <;> linarith

/-- C7: for every bar series whose bars satisfy `low ≤ close ≤ high` and
for all window periods, every defined `%K`, `%D` and RSI value of the
augmented frame lies in `[0, 100]`. -/
theorem indicator_outputs_bounded (bars : List Bar)
    (stoch_k_period stoch_d_period cci_period rsi_period : ℕ)
    (hb : ∀ b ∈ bars, b.low ≤ b.close ∧ b.close ≤ b.high) :
    ∀ a ∈ calculate_all_indicators bars stoch_k_period stoch_d_period
        cci_period rsi_period,
      (∀ v, a.stoch_k = some v → 0 ≤ v ∧ v ≤ 100) ∧
      (∀ v, a.stoch_d = some v → 0 ≤ v ∧ v ≤ 100) ∧
      (∀ v, a.rsi = some v → 0 ≤ v ∧ v ≤ 100) := by
  intro a ha
  unfold calculate_all_indicators at ha
  rcases List.mem_map.mp ha with ⟨i, hyp, rfl⟩
  have hi : i < bars.length := List.mem_range.mp hyp
  refine ⟨?_, ?_, ?_⟩
  · intro v hv
    exact stochKAt_bounds stoch_k_period bars i hi hb v hv
  · intro v hv
    refine stochDAt_bounds stoch_d_period (stoch_k_list stoch_k_period bars)
      i ?_ v hv
    intro x hx y hxy
    subst hxy
    unfold stoch_k_list at hx
    rcases List.mem_map.mp hx with ⟨j, hj, hje⟩
    exact stochKAt_bounds stoch_k_period bars j (List.mem_range.mp hj) hb y hje
  · intro v hv
    exact rsiAt_bounds rsi_period (closes bars) i v hv

/-- C7 witness: a three-bar series with valid OHLC ordering. -/
theorem indicator_outputs_bounded_witness :
    (∀ b ∈ barsW7, b.low ≤ b.close ∧ b.close ≤ b.high) ∧
    (∀ a ∈ calculate_all_indicators barsW7 2 2 2 2,
      (∀ v, a.stoch_k = some v → 0 ≤ v ∧ v ≤ 100) ∧
      (∀ v, a.stoch_d = some v → 0 ≤ v ∧ v ≤ 100) ∧
      (∀ v, a.rsi = some v → 0 ≤ v ∧ v ≤ 100)) := by
  have hbW7 : ∀ b ∈ barsW7, b.low ≤ b.close ∧ b.close ≤ b.high := by
    intro b hmem
    simp only [barsW7, mkBarW, List.mem_cons, List.not_mem_nil, or_false]
      at hmem
    rcases hmem with rfl | rfl | rfl <;> constructor <;> norm_num
  exact ⟨hbW7, indicator_outputs_bounded barsW7 2 2 2 2 hbW7⟩

end AlpaTrade
